import Mathlib

/-!
Verification of the cert-manage trust-store remediation engine.

Shallow embedding of:
- the whitelist package (`findRemovable`, `loadFromFile`, `validWhitelistPath`),
- the whitelist item matchers (`HexSignatureWhitelistItem`, `IssuersCommonNameWhitelistItem`),
- the Windows trust store stub (`windowsStore`),
- the file mirroring utility (`MirrorDir`, with `CopyFile` collapsed into one
  failure oracle per primitive operation),
- the confirmation server's port picker (`getPort`).

Go strings are modelled as Lean `String`; the Go standard library string
predicates (`strings.HasPrefix`, `strings.Contains`, `strings.ToLower`) are
modelled over the character list of the string so that kernel reduction works.
Go slices become Lean lists; a `[]*x509.Certificate` becomes
`List (Option Certificate)` with `none` standing for a nil pointer.
Fallible operations return `Except`/`Option` values, and filesystem side
effects are threaded explicitly as state.
-/

/-- Model of `strings.ToLower` (the fields it is applied to are ASCII in this
program): lower-case every character of the string. -/
def strToLower (s : String) : String := ⟨s.data.map Char.toLower⟩

/-- Model of `strings.HasPrefix(s, p)` / `String.startsWith`:
`p`'s characters are a prefix of `s`'s characters. -/
def strStartsWith (s p : String) : Bool := p.data.isPrefixOf s.data

/-- Boolean infix test on character lists, used to model `strings.Contains`. -/
def listIsInfix (l₁ : List Char) : List Char → Bool
  | [] => l₁.isEmpty
  | b :: t => (l₁.isPrefixOf (b :: t)) || listIsInfix l₁ t

/-- Model of `strings.Contains(s, sub)`. -/
def strContains (s sub : String) : Bool := listIsInfix sub.data s.data

/-- Canonical in-memory certificate record: the fields of an
`x509.Certificate` that the whitelist matchers inspect (the SHA-256
fingerprint in lower-case hex, and the issuer common name). -/
structure Certificate where
  fingerprint : String
  issuerCommonName : String
deriving DecidableEq, Repr

/-- The `whitelist.Item` interface: anything that can be compared against a
certificate.  A Go interface value is modelled by its method table, here the
single method `Matches`. -/
structure Item where
  Matches : Certificate → Bool

/-- Inner loop of `findRemovable`: the `remove` flag starts `true` and is set
to `false` whenever a whitelist item matches the (non-nil) certificate.  The
`inc != nil` guard of the source sits inside the loop body: a nil record is
never matched, so the flag stays `true`. -/
def shouldRemove (whitelisted : List Item) (inc : Option Certificate) : Bool :=
  whitelisted.foldl
    (fun remove wh =>
      match inc with
      | some c => if wh.Matches c then false else remove
      | none => remove)
    true

/-- `whitelist.findRemovable`: retain only the certificates that are
disallowed by the whitelist, by appending each incoming record whose
`remove` flag survived the inner scan. -/
def findRemovable (incoming : List (Option Certificate)) (whitelisted : List Item) :
    List (Option Certificate) :=
  incoming.foldl
    (fun removable inc =>
      if shouldRemove whitelisted inc then removable ++ [inc] else removable)
    []

/-- A fingerprint whitelist item of the `certs` package, carrying a hex
signature string. -/
structure HexSignatureWhitelistItem where
  Signature : String

/-- Modelled from the spec: the implementation of
`HexSignatureWhitelistItem.Matches` is not among the sources (only its tests
are).  Per the spec, the item matches when the candidate's fingerprint hex
string, lower-cased, starts with the signature — the comparison being
case-insensitive, the signature is lower-cased as well — and an empty
signature never matches. -/
def HexSignatureWhitelistItem.Matches (w : HexSignatureWhitelistItem)
    (c : Certificate) : Bool :=
  (w.Signature != "") && strStartsWith (strToLower c.fingerprint) (strToLower w.Signature)

/-- An issuer-common-name whitelist item of the `certs` package. -/
structure IssuersCommonNameWhitelistItem where
  Name : String

/-- Modelled from the spec: the implementation of
`IssuersCommonNameWhitelistItem.Matches` is not among the sources (only its
tests are).  Per the spec, the item matches when the candidate's issuer
common name contains the whitelist name as a case-sensitive substring, and
an empty name never matches. -/
def IssuersCommonNameWhitelistItem.Matches (w : IssuersCommonNameWhitelistItem)
    (c : Certificate) : Bool :=
  (w.Name != "") && strContains c.issuerCommonName w.Name

/-- Error taxonomy of the whitelist loader. -/
inductive LoadError
  | InvalidPathError
  | NotFoundError
  | ParseError
deriving DecidableEq, Repr

structure jsonSignatures where
  Hex : List String

structure jsonWhitelist where
  Signatures : jsonSignatures

/-- `whitelist.validWhitelistPath`: the path is rejected exactly when it is
empty or looks like a CLI flag.  (The `file.Exists` probe in the source only
prints a warning and does not affect the returned value.) -/
def validWhitelistPath (path : String) : Bool :=
  let isFlag := strStartsWith path "-"
  !(path.length == 0 || isFlag)

/-- The whitelist package's `fingerprint` item.  Modelled from the spec: its
`Matches` implementation is not among the sources; per the spec it is the
fingerprint-prefix matcher. -/
def fingerprint (s : String) : Item :=
  ⟨fun c => (HexSignatureWhitelistItem.mk s).Matches c⟩

/-- `whitelist.loadFromFile`, with the filesystem read (`ioutil.ReadFile`)
and the JSON decoder (`json.Unmarshal`) — both Go standard library —
abstracted as parameters: `readFile` returns the file contents when the file
exists, `unmarshal` returns the decoded structure when the bytes parse. -/
def loadFromFile (readFile : String → Option String)
    (unmarshal : String → Option jsonWhitelist) (path : String) :
    Except LoadError (List Item) :=
  if !validWhitelistPath path then
    .error .InvalidPathError
  else
    match readFile path with
    | none => .error .NotFoundError
    | some b =>
        match unmarshal b with
        | none => .error .ParseError
        | some parsed => .ok (parsed.Signatures.Hex.map fingerprint)

/-- Store error taxonomy relevant to the Backup/Remove/Restore contract. -/
inductive StoreError
  | NoBackupError
  | NoBackupFoundError
deriving DecidableEq, Repr

/-- The Windows trust store implementation (`store.windowsStore`): a
field-less value whose operations are stubs. -/
structure windowsStore where

/-- `windowsStore.Backup`: `return nil`. -/
def windowsStore.Backup (_ : windowsStore) : Option StoreError := none

/-- `windowsStore.Remove`: the body is `return nil` — it neither consults a
backup record nor touches the store. -/
def windowsStore.Remove (_ : windowsStore) (_ : List Item) : Option StoreError :=
  none

/-- `windowsStore.Restore`: the body is `return nil` — it neither looks for
a backup record nor touches the store. -/
def windowsStore.Restore (_ : windowsStore) : Option StoreError := none

/-- `rand.Intn(n)`: an arbitrary random draw reduced into `[0, n)`. -/
def randIntn (n : Nat) (draw : Nat) : Nat := draw % n

/-- `server.getPort`: `rand.Intn(2<<15 - lowerBound) + lowerBound` with
`lowerBound = 1024`. -/
def getPort (draw : Nat) : Nat :=
  let lowerBound := 1024
  randIntn (2 <<< 15 - lowerBound) draw + lowerBound

/-- A filesystem subtree rooted at a named entry: the input shape that
`file.MirrorDir` walks (regular files, symlinks, directories). -/
inductive FsNode
  | file (name : String)
  | symlink (name : String) (target : String)
  | dir (name : String) (children : List FsNode)
deriving Repr

def FsNode.name : FsNode → String
  | .file n => n
  | .symlink n _ => n
  | .dir n _ => n

/-- Failure oracle for the filesystem primitives `MirrorDir` invokes, one
flag per destination/source path: `statDstBad` is `os.Stat(dst)` failing
with an error that is not `IsNotExist`; `mkdirAllOk`, `readDirOk`,
`readlinkOk`, `symlinkOk` are the corresponding calls succeeding;
`copyFileOk` collapses the open/create/copy/sync/chmod steps of `CopyFile`
into one success flag for the destination path. -/
structure FsOps where
  statDstBad : String → Bool
  mkdirAllOk : String → Bool
  readDirOk : String → Bool
  readlinkOk : String → Bool
  symlinkOk : String → Bool
  copyFileOk : String → Bool

inductive MirrorErr
  | notDir (path : String)
  | ioErr (path : String)
deriving DecidableEq, Repr

mutual

/-- `file.MirrorDir(src, dst)`: the source tree is passed explicitly, the
destination state is the list of paths created so far.  Faithful to the
source: a non-directory source is an error; a bad `os.Stat(dst)` aborts;
the result of `os.MkdirAll` is discarded (the `err` variable is overwritten
by the following `ReadDir` assignment), only the successful creation is
recorded; each child is copied in order and the first failing child aborts
the walk, returning with whatever was already written. -/
def MirrorDir (ops : FsOps) : FsNode → String → String → List String →
    Except MirrorErr Unit × List String
  | .file _, srcPath, _, st => (.error (.notDir srcPath), st)
  | .symlink _ _, srcPath, _, st => (.error (.notDir srcPath), st)
  | .dir _ children, srcPath, dstPath, st =>
      if ops.statDstBad dstPath then (.error (.ioErr dstPath), st)
      else
        let st1 := if ops.mkdirAllOk dstPath then st ++ [dstPath] else st
        if ops.readDirOk srcPath then mirrorItems ops children srcPath dstPath st1
        else (.error (.ioErr srcPath), st1)

/-- The item loop of `MirrorDir`: directories recurse, symlinks are re-created
from their target, regular files go through `CopyFile`; any error returns
immediately. -/
def mirrorItems (ops : FsOps) : List FsNode → String → String → List String →
    Except MirrorErr Unit × List String
  | [], _, _, st => (.ok (), st)
  | item :: rest, srcPath, dstPath, st =>
      let s := srcPath ++ "/" ++ item.name
      let d := dstPath ++ "/" ++ item.name
      match item with
      | .dir n cs =>
          match MirrorDir ops (.dir n cs) s d st with
          | (.error e, st2) => (.error e, st2)
          | (.ok _, st2) => mirrorItems ops rest srcPath dstPath st2
      | .symlink _ _ =>
          if ops.readlinkOk s then
            if ops.symlinkOk d then mirrorItems ops rest srcPath dstPath (st ++ [d])
            else (.error (.ioErr d), st)
          else (.error (.ioErr s), st)
      | .file _ =>
          if ops.copyFileOk d then mirrorItems ops rest srcPath dstPath (st ++ [d])
          else (.error (.ioErr d), st)

end

/-- All filesystem primitives succeed except copying to `d/b`. -/
def copyBFails : FsOps :=
  ⟨fun _ => false, fun _ => true, fun _ => true, fun _ => true, fun _ => true,
   fun p => !(p == "d/b")⟩

/-- All filesystem primitives succeed except `os.MkdirAll`. -/
def mkdirFails : FsOps :=
  ⟨fun _ => false, fun _ => false, fun _ => true, fun _ => true, fun _ => true,
   fun _ => true⟩

theorem shouldRemove_none (W : List Item) : shouldRemove W none = true := by
  induction W with
  | nil => rfl
  | cons wh t ih => exact ih

theorem foldl_clear_eq (p : Item → Bool) (W : List Item) :
    ∀ b : Bool, W.foldl (fun remove wh => if p wh then false else remove) b
      = (b && !(W.any p)) := by
  induction W with
  | nil => simp
  | cons wh t ih =>
      intro b
      rw [List.foldl_cons, ih]
      by_cases h : p wh = true <;> simp [h]

theorem shouldRemove_some (W : List Item) (c : Certificate) :
    shouldRemove W (some c) = !(W.any fun wh => wh.Matches c) := by
  simpa [shouldRemove] using foldl_clear_eq (fun wh => wh.Matches c) W true

theorem foldl_append_filter (p : Option Certificate → Bool)
    (S : List (Option Certificate)) :
    ∀ acc : List (Option Certificate),
      S.foldl (fun removable inc => if p inc then removable ++ [inc] else removable) acc
        = acc ++ S.filter p := by
  induction S with
  | nil => simp
  | cons r t ih =>
      intro acc
      by_cases h : p r = true <;> simp [List.foldl_cons, h, ih, List.filter_cons]

theorem findRemovable_eq_filter (S : List (Option Certificate)) (W : List Item) :
    findRemovable S W = S.filter (shouldRemove W) := by
  simpa [findRemovable] using foldl_append_filter (shouldRemove W) S []

theorem list_all_not_eq (p : Item → Bool) (W : List Item) :
    (W.all fun wh => !(p wh)) = !(W.any p) := by
  induction W with
  | nil => rfl
  | cons wh t ih => simp [List.all_cons, List.any_cons, ih]

theorem listIsInfix_iff (l₁ l₂ : List Char) : listIsInfix l₁ l₂ = true ↔ l₁ <:+: l₂ := by
  induction l₂ with
  | nil => simp [listIsInfix, List.infix_nil, List.isEmpty_iff]
  | cons b t ih =>
      rw [listIsInfix, List.infix_cons_iff, Bool.or_eq_true, ih]
      rw [ List.isPrefixOf_iff_prefix]

/-- C2 (amended): `findRemovable S W` is exactly the records of `S` that no
whitelist item of `W` matches — a nil record, which no item can match, is
included; with an empty whitelist the result is all of `S` (nil entries
included); with an empty snapshot the result is empty. -/
theorem C2_findRemovable_exact (S : List (Option Certificate)) (W : List Item) :
    findRemovable S W
        = S.filter (fun r => match r with
            | none => true
            | some c => W.all fun wh => !(wh.Matches c))
      ∧ findRemovable S [] = S
      ∧ findRemovable ([] : List (Option Certificate)) W = [] := by
  refine ⟨?_, ?_, rfl⟩
  · rw [findRemovable_eq_filter]
    congr 1
    funext r
    cases r with
    | none => simp [shouldRemove_none]
    | some c =>
        exact (shouldRemove_some W c).trans
          (list_all_not_eq (fun wh => wh.Matches c) W).symm
  · rw [findRemovable_eq_filter]
    have h : ∀ r, shouldRemove [] r = true := by
      intro r; cases r with
      | none => rfl
      | some c => rfl
    simp [h]

/-- C2 counterexample: on the snapshot `[nil]` with an empty whitelist,
`findRemovable` returns `[nil]`, not "all of S minus nil entries" (which
would be `[]`): the nil entry is not dropped. -/
theorem C2_counterexample :
    findRemovable [(none : Option Certificate)] [] = [none]
      ∧ findRemovable [(none : Option Certificate)] [] ≠ [] := by
  refine ⟨rfl, ?_⟩
  intro h
  simp [findRemovable, shouldRemove] at h

/-- C3 counterexample: a nil record does appear in the output of
`findRemovable` — on `[nil]` with an empty whitelist the output contains
`nil`, refuting "the nil record never appears in the output". -/
theorem C3_counterexample :
    (none : Option Certificate) ∈ findRemovable [none] [] := by
  simp [findRemovable, shouldRemove]

/-- C3 (amended): a nil record in the snapshot is never retained — since no
whitelist item can match it, it always appears among the removable results. -/
theorem C3_nil_removable (S : List (Option Certificate)) (W : List Item)
    (h : (none : Option Certificate) ∈ S) :
    (none : Option Certificate) ∈ findRemovable S W := by
  rw [findRemovable_eq_filter]
  exact List.mem_filter.mpr ⟨h, shouldRemove_none W⟩

/-- C3 witness: instantiating the amended claim on the snapshot `[nil]`. -/
theorem C3_nil_removable_witness :
    (none : Option Certificate) ∈ findRemovable [none] [] :=
  C3_nil_removable [none] [] (by simp)

/-- C9: the output of `findRemovable` is an order-preserving subsequence of
the input snapshot: it is a `Sublist` of the input, and in particular every
output element occurs in the input.  (The input itself, being a value, is
unchanged.) -/
theorem C9_findRemovable_sublist (S : List (Option Certificate)) (W : List Item) :
    (findRemovable S W).Sublist S
      ∧ ∀ r ∈ findRemovable S W, r ∈ S := by
  rw [findRemovable_eq_filter]
  exact ⟨List.filter_sublist S, fun r hr => (List.filter_sublist S).mem hr⟩

/-- C9 witness: instantiating on the snapshot `[nil]` and the empty
whitelist, where the nil record is an output element. -/
theorem C9_findRemovable_sublist_witness :
    (none : Option Certificate) ∈ [(none : Option Certificate)] :=
  (C9_findRemovable_sublist [none] []).2 none (by simp [findRemovable, shouldRemove])

/-- C4: a fingerprint item whose signature is a non-empty, case-insensitively
compared prefix of the certificate's fingerprint matches the certificate,
and the item with the empty signature matches no certificate. -/
theorem C4_hex_signature (c : Certificate) (sig : String) :
    (sig ≠ "" → (strToLower sig).data <+: (strToLower c.fingerprint).data →
      (HexSignatureWhitelistItem.mk sig).Matches c = true)
    ∧ (HexSignatureWhitelistItem.mk "").Matches c = false := by
  constructor
  · intro hne hpre
    have hb : (sig != "") = true := bne_iff_ne.mpr hne
    simp only [HexSignatureWhitelistItem.Matches, strStartsWith, hb, Bool.true_and]
    rw [ List.isPrefixOf_iff_prefix]
    exact hpre
  · simp [HexSignatureWhitelistItem.Matches]

/-- C4 witness: the test fingerprint and the 8-character signature prefix. -/
theorem C4_hex_signature_witness :
    (HexSignatureWhitelistItem.mk "96940d99").Matches
      (Certificate.mk
        "96940d991419151450d1e75f66218f6f2594e1df4af31a5ad673c9a8746817ce"
        "Starfield Secure Certification Authority") = true :=
  (C4_hex_signature
    (Certificate.mk
      "96940d991419151450d1e75f66218f6f2594e1df4af31a5ad673c9a8746817ce"
      "Starfield Secure Certification Authority") "96940d99").1
    (by decide) (by decide)

/-- C5: an issuer-common-name item matches a certificate iff its name is a
non-empty, case-sensitive substring of the certificate's issuer common name;
the item with the empty name matches no certificate. -/
theorem C5_issuer_common_name (c : Certificate) (name : String) :
    ((IssuersCommonNameWhitelistItem.mk name).Matches c = true
        ↔ name ≠ "" ∧ name.data <:+: c.issuerCommonName.data)
      ∧ (IssuersCommonNameWhitelistItem.mk "").Matches c = false := by
  constructor
  · simp [IssuersCommonNameWhitelistItem.Matches, strContains, listIsInfix_iff,
      bne_iff_ne]
  · simp [IssuersCommonNameWhitelistItem.Matches]

/-- C5 witness: the test certificate's issuer common name and the whitelist
name "Starfield". -/
theorem C5_issuer_common_name_witness :
    (IssuersCommonNameWhitelistItem.mk "Starfield").Matches
      (Certificate.mk
        "96940d991419151450d1e75f66218f6f2594e1df4af31a5ad673c9a8746817ce"
        "Starfield Secure Certification Authority") = true :=
  ((C5_issuer_common_name
      (Certificate.mk
        "96940d991419151450d1e75f66218f6f2594e1df4af31a5ad673c9a8746817ce"
        "Starfield Secure Certification Authority") "Starfield").1).mpr
    ⟨by decide, by decide⟩

/-- C7: loading fails with `InvalidPathError` when the path is empty or
starts with the flag-prefix character, and with `NotFoundError` when the
path is well-formed but the file does not exist; in both cases no whitelist
is returned (the result is an error value). -/
theorem C7_load_errors (readFile : String → Option String)
    (unmarshal : String → Option jsonWhitelist) (path : String) :
    ((path = "" ∨ strStartsWith path "-" = true) →
        loadFromFile readFile unmarshal path = .error .InvalidPathError)
      ∧ (validWhitelistPath path = true → readFile path = none →
        loadFromFile readFile unmarshal path = .error .NotFoundError) := by
  constructor
  · intro h
    have hv : validWhitelistPath path = false := by
      rcases h with h | h
      · subst h; rfl
      · simp [validWhitelistPath, h]
    simp [loadFromFile, hv]
  · intro hv hr
    simp [loadFromFile, hv, hr]

/-- C7 witness: the flag-like path `"-whitelist"` yields `InvalidPathError`;
a well-formed path whose file is absent yields `NotFoundError`. -/
theorem C7_load_errors_witness :
    loadFromFile (fun _ => none) (fun _ => none) "-whitelist"
        = .error .InvalidPathError
      ∧ loadFromFile (fun _ => none) (fun _ => none) "wl.json"
        = .error .NotFoundError :=
  ⟨(C7_load_errors (fun _ => none) (fun _ => none) "-whitelist").1 (Or.inr (by decide)),
   (C7_load_errors (fun _ => none) (fun _ => none) "wl.json").2 (by decide) rfl⟩

/-- C1: `windowsStore.Remove`, called in a session with no prior Backup,
returns `nil` (no error) for every whitelist — it never produces the
`NoBackupError` the spec requires. -/
theorem C1_remove_returns_nil :
    ∀ wh : List Item, windowsStore.Remove ⟨⟩ wh = none :=
  fun _ => rfl

/-- C6: `windowsStore.Restore`, called with no existing backup record,
returns `nil` (no error) — it never produces the `NoBackupFoundError` the
spec requires. -/
theorem C6_restore_returns_nil : windowsStore.Restore ⟨⟩ = none := rfl

/-- C10: for every random draw, `getPort` returns a port in
`[1024, 65535]` — never a privileged port and never outside the TCP range. -/
theorem C10_getPort_range (draw : Nat) :
    1024 ≤ getPort draw ∧ getPort draw ≤ 65535 := by
  have hshift : (2 <<< 15 : Nat) = 65536 := by decide
  have h : draw % (2 <<< 15 - 1024) < 2 <<< 15 - 1024 :=
    Nat.mod_lt _ (by rw [hshift]; decide)
  simp only [getPort, randIntn]
  omega

/-- C8: `MirrorDir` is not all-or-nothing.  Mirroring a directory with files
`a` and `b` where the copy of `b` fails returns an error but leaves the
partially written destination tree (`d` and `d/a`) on disk — nothing is
rolled back.  And mirroring an empty directory where `os.MkdirAll` fails
returns no error at all: the `MkdirAll` error is overwritten before it is
checked, contradicting the function's own contract that any error during
mirroring yields a non-nil result. -/
theorem C8_mirror_not_atomic :
    MirrorDir copyBFails (.dir "s" [.file "a", .file "b"]) "s" "d" []
        = (.error (.ioErr "d/b"), ["d", "d/a"])
      ∧ MirrorDir mkdirFails (.dir "s" []) "s" "d" [] = (.ok (), []) :=
  ⟨rfl, rfl⟩
